import Mathlib

/-!
Shallow embedding of the `gbb` repository state engine: the git query layer and
branch classifier (`src/gbb/git.py`), the deletion executors (`src/gbb/cleanup.py`)
and the snapshot reconciler parts of the application (`src/gbb/app.py`).

Python strings are modelled by `String`; the handful of Python string methods the
source uses (`splitlines`, `strip`, `split`, `partition`, `removeprefix`,
`startswith`, slicing, `lower`, substring test, `int()`) are re-implemented below
by structural recursion over the character list so that concrete runs reduce in
the kernel.  Python `dict` is modelled by an association list in insertion order:
assignment updates the value in place when the key exists and appends otherwise,
exactly like an insertion-ordered Python dict.  Filesystem paths are modelled as
plain strings.
-/

namespace Gbb

/-- Characters split at newline characters; the final accumulated piece is always
emitted and each piece excludes the newline. -/
def chSplitNl : List Char → List Char → List (List Char)
  | [], acc => [acc.reverse]
  | c :: cs, acc =>
    if c = '\n' then acc.reverse :: chSplitNl cs []
    else chSplitNl cs (c :: acc)

/-- Python `str.splitlines()` restricted to `\n` separators: the empty string has no
lines, and a trailing newline does not produce a trailing empty line. -/
def pySplitlines (s : String) : List String :=
  match s.data with
  | [] => []
  | cs =>
    let pieces := chSplitNl cs []
    let pieces := if pieces.getLast? = some [] then pieces.dropLast else pieces
    pieces.map (fun l => ⟨l⟩)

/-- Python `str.strip()`: whitespace removed from both ends. -/
def pyStrip (s : String) : String :=
  ⟨((s.data.dropWhile Char.isWhitespace).reverse.dropWhile Char.isWhitespace).reverse⟩

/-- `p` is a prefix of `s`, as a boolean over character lists. -/
def chPfx : List Char → List Char → Bool
  | [], _ => true
  | _ :: _, [] => false
  | p :: ps, c :: cs => p = c && chPfx ps cs

/-- Python `str.startswith(p)`. -/
def pyStartswith (s p : String) : Bool := chPfx p.data s.data

/-- Python `str.removeprefix(p)`. -/
def stripPfx (s p : String) : String :=
  if chPfx p.data s.data then ⟨s.data.drop p.data.length⟩ else s

/-- Python slicing `s[:n]`. -/
def pyTake (s : String) (n : Nat) : String := ⟨s.data.take n⟩

/-- Split at the first space character, returning the part before it and,
when a space exists, the part after it. -/
def chBreakSpace : List Char → List Char × Option (List Char)
  | [] => ([], none)
  | c :: cs =>
    if c = ' ' then ([], some cs)
    else
      let r := chBreakSpace cs
      (c :: r.1, r.2)

/-- Python `str.partition(" ")` projected to the head and tail components
(`key, _, value = line.partition(" ")`). -/
def pyPartitionSpace (s : String) : String × String :=
  let r := chBreakSpace s.data
  (⟨r.1⟩, ⟨r.2.getD []⟩)

/-- Whitespace-run splitting with an accumulator; no empty tokens are produced. -/
def chSplitWS : List Char → List Char → List (List Char)
  | [], acc => if acc.isEmpty then [] else [acc.reverse]
  | c :: cs, acc =>
    if c.isWhitespace then
      if acc.isEmpty then chSplitWS cs []
      else acc.reverse :: chSplitWS cs []
    else chSplitWS cs (c :: acc)

/-- Python `str.split()` (no arguments): split on whitespace runs, no empty fields. -/
def pySplitWS (s : String) : List String := (chSplitWS s.data []).map (fun l => ⟨l⟩)

/-- Python `str.split(None, 1)`: at most one split, on the first whitespace run;
the remainder keeps its internal and trailing whitespace. -/
def pySplitWS1 (s : String) : List String :=
  let t := s.data.dropWhile Char.isWhitespace
  if t.isEmpty then []
  else
    let tok := t.takeWhile (fun c => !c.isWhitespace)
    let rest := (t.dropWhile (fun c => !c.isWhitespace)).dropWhile Char.isWhitespace
    if rest.isEmpty then [⟨tok⟩] else [⟨tok⟩, ⟨rest⟩]

/-- `sub` occurs as a contiguous run inside the character list. -/
def chContainsSub (sub : List Char) : List Char → Bool
  | [] => sub.isEmpty
  | c :: cs => chPfx sub (c :: cs) || chContainsSub sub cs

/-- Python `sub in s` on strings. -/
def pyContains (s sub : String) : Bool := chContainsSub sub.data s.data

/-- Decimal digits to a natural number; `none` when empty or a non-digit occurs. -/
def chDigits : List Char → Option Nat
  | [] => none
  | ds =>
    ds.foldl
      (fun acc c =>
        match acc with
        | none => none
        | some n => if c.isDigit then some (n * 10 + (c.toNat - 48)) else none)
      (some 0)

/-- Python `int(s)` on the decimal strings git emits (optional sign, digits,
surrounding whitespace).  Python raises `ValueError` on malformed input; every
field this program feeds to `int()` comes from a fixed-format git placeholder,
so the embedding maps the (unreachable) malformed case to 0. -/
def pyInt (s : String) : Int :=
  match (pyStrip s).data with
  | '-' :: ds => match chDigits ds with | some n => -(n : Int) | none => 0
  | '+' :: ds => match chDigits ds with | some n => (n : Int) | none => 0
  | ds => match chDigits ds with | some n => (n : Int) | none => 0

/-- Python `str.lower()`. -/
def pyLower (s : String) : String := ⟨s.data.map Char.toLower⟩

/-- Python dict assignment `d[k] = v` for an insertion-ordered dict: update in
place when the key exists, append otherwise. -/
def dictSet {α : Type} (d : List (String × α)) (k : String) (v : α) : List (String × α) :=
  if d.any (fun p => p.1 == k) then
    d.map (fun p => if p.1 == k then (k, v) else p)
  else d ++ [(k, v)]

/-- Python `d.get(k)` / `k in d`: value of the first (unique) entry with key `k`. -/
def dictGet? {α : Type} : List (String × α) → String → Option α
  | [], _ => none
  | (k', v) :: rest, k => if k' == k then some v else dictGet? rest k

/-! ### Data model (`src/gbb/git.py`) -/

/-- `Worktree` dataclass: a git worktree linked to one branch. -/
structure Worktree where
  path : String
  head : String
  branch : String
deriving DecidableEq, Repr

/-- `BranchInfo` dataclass.  `is_default` is not set anywhere in `git.py` but is
read by `app.py` (`_data_fingerprint`, `_populate`), so it is carried here with
the same always-false default the classifier leaves it at. -/
structure BranchInfo where
  name : String
  commit : String
  timestamp : Int
  worktree : Option Worktree := none
  is_current : Bool := false
  dirty : Bool := false
  ahead_upstream : Int := 0
  behind_upstream : Int := 0
  ahead_main : Int := 0
  behind_main : Int := 0
  deletable : Bool := false
  delete_reason : Option String := none
  is_default : Bool := false
deriving DecidableEq, Repr

/-- Result of a completed `subprocess.run` call (the spawn itself succeeded). -/
structure SubpRes where
  returncode : Int
  stdout : String
  stderr : String
deriving DecidableEq, Repr

/-- The git facts available to one repository's discovery pass: the completed
result of each distinct git invocation the source makes, plus the clock.  Each
field corresponds to one `subprocess.run` call site in `git.py`; invocations that
take arguments (a branch name, a path, a ref pair) are functions of those
arguments. -/
structure GitEnv where
  /-- `git worktree list --porcelain` -/
  worktree_list : SubpRes
  /-- `git for-each-ref refs/heads/ --format=%(refname:short) %(objectname:short) %(committerdate:unix)` -/
  for_each_ref_branches : SubpRes
  /-- `git for-each-ref refs/heads/ --format=%(refname:short) %(upstream:track)` -/
  for_each_ref_tracking : SubpRes
  /-- `git symbolic-ref refs/remotes/origin/HEAD` -/
  symbolic_ref_origin_head : SubpRes
  /-- `git rev-parse --verify refs/heads/<name>` -/
  rev_parse_verify : String → SubpRes
  /-- `git status --porcelain` run at a worktree path -/
  status_porcelain : String → SubpRes
  /-- `git rev-list --left-right --count <branch>...<other>` -/
  rev_list_count : String → String → SubpRes
  /-- `git cherry <main> <branch>` -/
  cherry : String → String → SubpRes
  /-- `git merge-base --is-ancestor <branch> <ancestor>` -/
  merge_base_is_ancestor : String → String → SubpRes
  /-- `git for-each-ref --format=%(upstream:short) refs/heads/<name>` -/
  upstream_short : String → SubpRes
  /-- `time.time()` at the start of discovery (whole seconds) -/
  now : Int

/-! ### Git query layer (`src/gbb/git.py`) -/

/-- `run_git`: returns the invocation's stdout, ignoring the exit status.
(The spawn-failure behaviour of `subprocess.run` itself is modelled separately
by `run_git_spawned` below.) -/
def run_git (res : SubpRes) : String := res.stdout

/-- `parse_worktrees` flush step: at a blank line, the accumulated record is
added to the map when its `branch` field exists and is not a detached-HEAD
marker.  Python indexes `current["worktree"]` and `current["HEAD"]` directly
(git's machine format always emits both); the embedding reads them with a
default that is never reached on machine-format input. -/
def flushWorktree (worktrees : List (String × Worktree)) (current : List (String × String)) :
    List (String × Worktree) :=
  match dictGet? current "branch" with
  | some b =>
    if pyStartswith b "(" then worktrees
    else
      let branch := stripPfx b "refs/heads/"
      dictSet worktrees branch
        ⟨(dictGet? current "worktree").getD "", pyTake ((dictGet? current "HEAD").getD "") 7, branch⟩
  | none => worktrees

/-- The line loop of `parse_worktrees`. -/
def parseWorktreesGo : List String → List (String × Worktree) → List (String × String) →
    List (String × Worktree)
  | [], worktrees, _ => worktrees
  | line :: rest, worktrees, current =>
    if pyStrip line == "" then parseWorktreesGo rest (flushWorktree worktrees current) []
    else
      let kv := pyPartitionSpace line
      parseWorktreesGo rest worktrees (dictSet current kv.1 kv.2)

/-- `parse_worktrees(output)`. -/
def parse_worktrees (output : String) : List (String × Worktree) :=
  parseWorktreesGo (pySplitlines output) [] []

/-- `parse_branches(output)`. -/
def parse_branches (output : String) : List (String × BranchInfo) :=
  (pySplitlines (pyStrip output)).foldl
    (fun branches line =>
      match pySplitWS line with
      | name :: commit :: ts :: _ =>
        dictSet branches name { name := name, commit := commit, timestamp := pyInt ts }
      | _ => branches)
    []

/-- `parse_tracking_status(output)`. -/
def parse_tracking_status (output : String) : List (String × Bool) :=
  (pySplitlines (pyStrip output)).foldl
    (fun gone line =>
      match pySplitWS1 line with
      | [name, track] => dictSet gone name (pyContains track "[gone]")
      | [name] => dictSet gone name false
      | _ => gone)
    []

/-- `detect_main_branch(repo)`. -/
def detect_main_branch (env : GitEnv) : Option String :=
  let ref := pyStrip (run_git env.symbolic_ref_origin_head)
  if ref != "" then some (stripPfx ref "refs/remotes/origin/")
  else ["main", "master"].find? (fun name => (env.rev_parse_verify name).returncode == 0)

/-- `is_dirty(path)`. -/
def is_dirty (env : GitEnv) (path : String) : Bool :=
  pyStrip (run_git (env.status_porcelain path)) != ""

/-- `ahead_behind(repo, branch, upstream)`. -/
def ahead_behind (env : GitEnv) (branch upstream : String) : Int × Int :=
  match pySplitWS (pyStrip (run_git (env.rev_list_count branch upstream))) with
  | [a, b] => (pyInt a, pyInt b)
  | _ => (0, 0)

/-- `is_squash_merged(repo, branch, main)`. -/
def is_squash_merged (env : GitEnv) (branch main : String) : Bool :=
  let output := pyStrip (run_git (env.cherry main branch))
  if output == "" then false
  else (pySplitlines output).all (fun line => pyStartswith line "-")

/-- `is_ancestor(repo, branch, ancestor)`. -/
def is_ancestor (env : GitEnv) (branch ancestor : String) : Bool :=
  (env.merge_base_is_ancestor branch ancestor).returncode == 0

/-- Python truthiness of an `Optional[str]`: `None` and `""` are falsy. -/
def pyTruthyStr : Option String → Bool
  | none => false
  | some s => s != ""

/-- Python `name != main_branch` where `main_branch : Optional[str]`:
comparison with `None` is always `True`. -/
def pyStrNeOpt (name : String) : Option String → Bool
  | none => true
  | some m => name != m

/-! ### Branch classifier: `discover_repo`'s per-branch loop body, split into its
four sequential stages exactly as the source performs them. -/

/-- Stage 1 of the loop body (`git.py` lines 158-167): attach the worktree,
overwrite the commit with the worktree HEAD, compute `is_current` and `dirty`;
a branch without a worktree is dropped (`continue`) when older than the cutoff. -/
def attachWorktree (env : GitEnv) (worktrees : List (String × Worktree)) (cutoff : Int)
    (cwd : String) (name : String) (info : BranchInfo) : Option BranchInfo :=
  match dictGet? worktrees name with
  | some wt =>
    some { info with
      worktree := some wt
      commit := wt.head
      is_current := cwd == wt.path || pyStartswith cwd (wt.path ++ "/")
      dirty := is_dirty env wt.path }
  | none => if info.timestamp < cutoff then none else some info

/-- Stage 2 (`git.py` lines 169-172): ahead/behind against the main branch for
every branch other than main itself, when a main branch was detected. -/
def addMainCounts (env : GitEnv) (main_branch : Option String) (name : String)
    (info : BranchInfo) : BranchInfo :=
  if pyTruthyStr main_branch && pyStrNeOpt name main_branch then
    let ab := ahead_behind env name (main_branch.getD "")
    { info with ahead_main := ab.1, behind_main := ab.2 }
  else info

/-- Stage 3 (`git.py` lines 174-184): ahead/behind against the configured
upstream, only for branches with a worktree that have one. -/
def addUpstreamCounts (env : GitEnv) (name : String) (info : BranchInfo) : BranchInfo :=
  if info.worktree.isSome then
    let upstream := pyStrip (run_git (env.upstream_short name))
    if upstream != "" then
      let ab := ahead_behind env name upstream
      { info with ahead_upstream := ab.1, behind_upstream := ab.2 }
    else info
  else info

/-- Stage 4 (`git.py` lines 186-195): the deletion-eligibility verdict. -/
def classify (env : GitEnv) (gone_branches : List (String × Bool)) (main_branch : Option String)
    (name : String) (info : BranchInfo) : BranchInfo :=
  if pyStrNeOpt name main_branch && !info.is_current then
    if (dictGet? gone_branches name).getD false then
      { info with deletable := true, delete_reason := some "upstream gone" }
    else if pyTruthyStr main_branch && is_ancestor env name (main_branch.getD "") then
      { info with deletable := true, delete_reason := some "merged" }
    else if pyTruthyStr main_branch && is_squash_merged env name (main_branch.getD "") then
      { info with deletable := true, delete_reason := some "squash-merged" }
    else info
  else info

/-- The whole loop body of `discover_repo` for one `(name, info)` dict item;
`none` models `continue`. -/
def processBranch (env : GitEnv) (worktrees : List (String × Worktree))
    (gone_branches : List (String × Bool)) (main_branch : Option String) (cutoff : Int)
    (cwd : String) (name : String) (info : BranchInfo) : Option BranchInfo :=
  (attachWorktree env worktrees cutoff cwd name info).map
    (fun i => classify env gone_branches main_branch name
      (addUpstreamCounts env name (addMainCounts env main_branch name i)))

/-- `discover_repo(repo, recent_days, cwd)`. -/
def discover_repo (env : GitEnv) (recent_days : Int) (cwd : String) : List BranchInfo :=
  let worktrees := parse_worktrees (run_git env.worktree_list)
  let branches := parse_branches (run_git env.for_each_ref_branches)
  let gone_branches := parse_tracking_status (run_git env.for_each_ref_tracking)
  let main_branch := detect_main_branch env
  let cutoff := env.now - recent_days * 86400
  branches.filterMap
    (fun p => processBranch env worktrees gone_branches main_branch cutoff cwd p.1 p.2)

/-! ### Spawn failure model for the query layer

`subprocess.run` raises `FileNotFoundError` when the binary it is asked to spawn
does not exist; nothing in `git.py` catches exceptions, so such a failure
propagates out of every query-layer function.  `run_git_spawned` is `run_git`
over a spawn-fallible invocation; `is_dirty_spawned` is `is_dirty` (`git.py`
lines 100-102) over the same. -/

/-- The exception `subprocess.run` raises when the git binary is missing. -/
inductive SpawnErr where
  | fileNotFound
deriving DecidableEq, Repr

/-- `run_git` when the spawn itself may fail: the source has no handler, so the
exception propagates instead of producing stdout. -/
def run_git_spawned (res : Except SpawnErr SubpRes) : Except SpawnErr String :=
  match res with
  | .error e => .error e
  | .ok r => .ok r.stdout

/-- `is_dirty` over a spawn-fallible `git status --porcelain` invocation. -/
def is_dirty_spawned (res : Except SpawnErr SubpRes) : Except SpawnErr Bool :=
  match run_git_spawned res with
  | .error e => .error e
  | .ok output => .ok (pyStrip output != "")

/-! ### Deletion executors (`src/gbb/cleanup.py`) -/

/-- `delete_branch(repo, branch, force)` given the completed result of
`git branch -D <branch>` (or `-d` without force): the stripped stderr on
non-zero exit, else no error. -/
def delete_branch (res : SubpRes) : Option String :=
  if res.returncode != 0 then some (pyStrip res.stderr) else none

/-- `delete_worktree(repo, worktree_path)` given the completed result of
`git worktree remove <path>`. -/
def delete_worktree (res : SubpRes) : Option String :=
  if res.returncode != 0 then some (pyStrip res.stderr) else none

/-! ### Application snapshot state (`src/gbb/app.py`)

Only the snapshot-reconciliation state is modelled: the pending-delete flag, the
aggregated repo data, the derived flat row list, the table's row keys and cursor,
and the filter/pin/scope fields those methods read.  Pure rendering (cell text,
colors, group indices) is presentation-only and omitted; the table is modelled by
its ordered row keys, which is what the cursor logic operates on. -/

/-- The `GbbApp` fields involved in snapshot reconciliation.  `repo_data` entries
are `(repo_name, repo_root_path, branches)`. -/
structure AppState where
  pending_delete : Option (String × String × BranchInfo) := none
  filtering : Bool := false
  all_rows : List (String × String × BranchInfo) := []
  repo_data : List (String × String × List BranchInfo) := []
  current_repo : Option String := none
  show_all : Bool := false
  loading_others : Bool := false
  pins : List String := []
  active_branch_key : Option String := none
  table_keys : List String := []
  cursor_row : Nat := 0
  filter_query : String := ""
deriving DecidableEq, Repr

/-- `pin_key(repo_name, branch_name)` (`src/gbb/pins.py`). -/
def pin_key (repo_name branch_name : String) : String := repo_name ++ ":" ++ branch_name

/-- The stable row key `_populate` assigns to a row:
`f"{repo_name}:{b.name}:{wt_path}"`. -/
def rowKey (repo_name : String) (b : BranchInfo) : String :=
  let wt_path := match b.worktree with | some wt => wt.path | none => ""
  repo_name ++ ":" ++ b.name ++ ":" ++ wt_path

/-- `_rebuild_rows`: flatten `repo_data` into `(repo_name, repo_path, branch)` rows. -/
def rebuild_rows (s : AppState) : AppState :=
  { s with all_rows := s.repo_data.flatMap (fun e => e.2.2.map (fun b => (e.1, e.2.1, b))) }

/-- `_scoped_rows`: scope to the current repo unless showing all, then order as
active row first, pinned rows next, the rest last. -/
def scoped_rows (s : AppState) : List (String × String × BranchInfo) :=
  let rows :=
    if !s.show_all && pyTruthyStr s.current_repo then
      s.all_rows.filter (fun r => s.current_repo == some r.1)
    else s.all_rows
  let active := rows.filter (fun r => s.active_branch_key == some (r.1 ++ ":" ++ r.2.2.name))
  let rest := rows.filter (fun r => !(s.active_branch_key == some (r.1 ++ ":" ++ r.2.2.name)))
  let pinned := rest.filter (fun r => s.pins.contains (pin_key r.1 r.2.2.name))
  let unpinned := rest.filter (fun r => !(s.pins.contains (pin_key r.1 r.2.2.name)))
  active ++ pinned ++ unpinned

/-- `_populate(rows)` restricted to the table state it produces: the ordered row
keys after `table.clear()` and the `add_row` loop. -/
def populate (s : AppState) (rows : List (String × String × BranchInfo)) : AppState :=
  { s with table_keys := rows.map (fun r => rowKey r.1 r.2.2) }

/-- `_apply_filter(query)`. -/
def apply_filter (s : AppState) (query : String) : AppState :=
  let rows := scoped_rows s
  let q := pyLower query
  let filtered :=
    if q != "" then
      rows.filter (fun r => pyContains (pyLower r.2.2.name) q || pyContains (pyLower r.1) q)
    else rows
  populate s filtered

/-- One row of the fingerprint tuple, in the order `_data_fingerprint` builds it. -/
structure FingerprintRow where
  repo : String
  branch : String
  timestamp : Int
  dirty : Bool
  ahead_upstream : Int
  behind_upstream : Int
  ahead_main : Int
  behind_main : Int
  is_default : Bool
  deletable : Bool
  delete_reason : Option String
  worktree_path : String
  commit : String
deriving DecidableEq, Repr

/-- `str(b.worktree.path) if b.worktree else ""`. -/
def worktreePathStr (b : BranchInfo) : String :=
  match b.worktree with | some wt => wt.path | none => ""

/-- The row `_data_fingerprint` appends for branch `b` of repo `name`. -/
def fingerprintRow (name : String) (b : BranchInfo) : FingerprintRow :=
  { repo := name, branch := b.name, timestamp := b.timestamp, dirty := b.dirty
    ahead_upstream := b.ahead_upstream, behind_upstream := b.behind_upstream
    ahead_main := b.ahead_main, behind_main := b.behind_main
    is_default := b.is_default, deletable := b.deletable, delete_reason := b.delete_reason
    worktree_path := worktreePathStr b, commit := b.commit }

/-- `GbbApp._data_fingerprint(data)`. -/
def data_fingerprint (data : List (String × String × List BranchInfo)) : List FingerprintRow :=
  data.flatMap (fun e => e.2.2.map (fun b => fingerprintRow e.1 b))

/-- The repo-scan of `_apply_refresh` (`app.py` lines 626-630): nested loops where
`break` only leaves the inner loop, so the last repo containing an `is_current`
branch wins. -/
def find_current_repo (data : List (String × String × List BranchInfo))
    (cur : Option String) : Option String :=
  data.foldl (fun acc e => if e.2.2.any (fun b => b.is_current) then some e.1 else acc) cur

/-- `GbbApp._apply_refresh(new_data)`. -/
def apply_refresh (s : AppState) (new_data : List (String × String × List BranchInfo)) :
    AppState :=
  if s.pending_delete.isSome then s
  else if data_fingerprint new_data == data_fingerprint s.repo_data then s
  else
    let cursor_key : Option String :=
      if s.table_keys.length > 0 ∧ s.cursor_row < s.table_keys.length then
        s.table_keys.get? s.cursor_row
      else none
    let s1 := rebuild_rows { s with repo_data := new_data }
    let s2 := { s1 with current_repo := find_current_repo s1.repo_data s1.current_repo }
    let s3 := if s2.filtering then apply_filter s2 s2.filter_query
              else populate s2 (scoped_rows s2)
    match cursor_key with
    | some key =>
      match s3.table_keys.findIdx? (fun rk => rk == key) with
      | some i => { s3 with cursor_row := i }
      | none =>
        if s3.table_keys.length > 0 then
          { s3 with cursor_row := min s.cursor_row (s3.table_keys.length - 1) }
        else s3
    | none =>
      if s3.table_keys.length > 0 then
        { s3 with cursor_row := min s.cursor_row (s3.table_keys.length - 1) }
      else s3

/-- `GbbApp._refresh_tick`: true iff the tick falls through all three guards and
invokes `_refresh_repos`. -/
def refresh_tick_starts (s : AppState) : Bool :=
  if s.pending_delete.isSome then false
  else if s.loading_others then false
  else if s.repo_data.isEmpty then false
  else true

/-- The `repo_data` update loop of `_remove_row`: find the first entry for
`repo_name`, filter the named branch out of it, and stop (`break`). -/
def remove_branch_entry (repo_name branch_name : String) :
    List (String × String × List BranchInfo) → List (String × String × List BranchInfo)
  | [] => []
  | e :: rest =>
    if e.1 == repo_name then
      (e.1, e.2.1, e.2.2.filter (fun b => b.name != branch_name)) :: rest
    else e :: remove_branch_entry repo_name branch_name rest

/-- `GbbApp._remove_row(repo_name, branch_name)`. -/
def remove_row (s : AppState) (repo_name branch_name : String) : AppState :=
  let s1 := { s with
    all_rows := s.all_rows.filter (fun r => !(r.1 == repo_name && r.2.2.name == branch_name)) }
  let s2 := { s1 with repo_data := remove_branch_entry repo_name branch_name s1.repo_data }
  if s2.filtering then apply_filter s2 s2.filter_query else populate s2 (scoped_rows s2)

/-- A git mutation call issued by the delete path, in invocation order. -/
inductive GitMutation where
  | remove_worktree (repo_path : String) (worktree_path : String)
  | remove_branch (repo_path : String) (branch : String)
deriving DecidableEq, Repr

/-- The completed results of the (at most two) mutation invocations `_do_delete`
can make. -/
structure DeleteEnv where
  /-- `git worktree remove <path>` -/
  worktree_remove : SubpRes
  /-- `git branch -D <branch>` (`_do_delete` always passes `force=True`) -/
  branch_delete : SubpRes
deriving DecidableEq, Repr

/-- `GbbApp._do_delete(repo_name, repo_path, branch)`: the ordered list of git
mutation calls performed, the resulting app state, and the notifications shown. -/
def do_delete (env : DeleteEnv) (s : AppState) (repo_name repo_path : String)
    (branch : BranchInfo) : List GitMutation × AppState × List String :=
  match branch.worktree with
  | some wt =>
    match delete_worktree env.worktree_remove with
    | some err => ([.remove_worktree repo_path wt.path], s, ["Error: " ++ err])
    | none =>
      match delete_branch env.branch_delete with
      | some err =>
        ([.remove_worktree repo_path wt.path, .remove_branch repo_path branch.name], s,
          ["Error: " ++ err])
      | none =>
        ([.remove_worktree repo_path wt.path, .remove_branch repo_path branch.name],
          remove_row s repo_name branch.name, ["Deleted " ++ branch.name])
  | none =>
    match delete_branch env.branch_delete with
    | some err => ([.remove_branch repo_path branch.name], s, ["Error: " ++ err])
    | none =>
      ([.remove_branch repo_path branch.name], remove_row s repo_name branch.name,
        ["Deleted " ++ branch.name])

/-! ### Spec-side definition for the classification claim

`specDeleteVerdict` renders the spec's wording of the deletion-eligibility rules
("evaluate, in order, stopping at the first match: (a) upstream reported gone,
(b) is-ancestor of main, (c) squash-merge check"), to be compared with what the
classifier computes. -/

/-- The verdict `(deletable, delete_reason)` as the spec words the three ordered
rules. -/
def specDeleteVerdict (upstreamGone isAncestorOfMain squashMerged : Bool) :
    Bool × Option String :=
  if upstreamGone then (true, some "upstream gone")
  else if isAncestorOfMain then (true, some "merged")
  else if squashMerged then (true, some "squash-merged")
  else (false, none)

/-! ### Record view of the worktree-list machine format

`wtRecords` names the records of a worktree-list input: the key/value blocks the
line loop of `parse_worktrees` accumulates and flushes at each blank line.  It is
used to state what `parse_worktrees` keeps and excludes. -/

/-- The record dicts flushed by the `parse_worktrees` loop, in order. -/
def wtRecordsGo : List String → List (String × String) → List (List (String × String))
  | [], _ => []
  | line :: rest, current =>
    if pyStrip line == "" then current :: wtRecordsGo rest []
    else
      let kv := pyPartitionSpace line
      wtRecordsGo rest (dictSet current kv.1 kv.2)

/-- The records of a worktree-list output string. -/
def wtRecords (output : String) : List (List (String × String)) :=
  wtRecordsGo (pySplitlines output) []

/-! ### Concrete repositories and states used to evaluate the theorems -/

/-- A successful invocation printing `out`. -/
def okRes (out : String) : SubpRes := ⟨0, out, ""⟩

/-- A failed invocation: non-zero exit, nothing on stdout. -/
def failRes : SubpRes := ⟨1, "", ""⟩

/-- One repository: branch `feat` checked out in a worktree at `/w/feat`, its
upstream reported gone; the remote HEAD names `main`. -/
def envC1 : GitEnv where
  worktree_list := okRes "worktree /w/feat\nHEAD abcdef1234\nbranch refs/heads/feat\n\n"
  for_each_ref_branches := okRes "feat abcdef1 1000"
  for_each_ref_tracking := okRes "feat [gone]"
  symbolic_ref_origin_head := okRes "refs/remotes/origin/main\n"
  rev_parse_verify := fun _ => failRes
  status_porcelain := fun _ => okRes ""
  rev_list_count := fun _ _ => okRes ""
  cherry := fun _ _ => okRes ""
  merge_base_is_ancestor := fun _ _ => failRes
  upstream_short := fun _ => okRes ""
  now := 0

/-- One repository with branches `main` and `dev`, no worktrees, where every
merge-base query answers "is an ancestor". -/
def envC2 : GitEnv where
  worktree_list := okRes ""
  for_each_ref_branches := okRes "main abc1111 1000\ndev abc2222 1000"
  for_each_ref_tracking := okRes ""
  symbolic_ref_origin_head := okRes "refs/remotes/origin/main\n"
  rev_parse_verify := fun _ => failRes
  status_porcelain := fun _ => okRes ""
  rev_list_count := fun _ _ => okRes ""
  cherry := fun _ _ => okRes ""
  merge_base_is_ancestor := fun _ _ => okRes ""
  upstream_short := fun _ => okRes ""
  now := 0

/-- The `dev` branch of `envC2` as the classifier reports it. -/
def bC2dev : BranchInfo :=
  { name := "dev", commit := "abc2222", timestamp := 1000,
    deletable := true, delete_reason := some "merged" }

/-- The `feat` branch of `envC1` as discovered from an unrelated working
directory: worktree attached, upstream gone. -/
def bC1gone : BranchInfo :=
  { name := "feat", commit := "abcdef1", timestamp := 1000,
    worktree := some ⟨"/w/feat", "abcdef1", "feat"⟩,
    deletable := true, delete_reason := some "upstream gone" }

/-- The `feat` branch of `envC1` as discovered from inside its worktree. -/
def bC1cur : BranchInfo :=
  { name := "feat", commit := "abcdef1", timestamp := 1000,
    worktree := some ⟨"/w/feat", "abcdef1", "feat"⟩, is_current := true }

/-- A repository with an old worktree branch, a fresh ref-only branch and a stale
ref-only branch, observed 20 days in with a 14-day retention window. -/
def envC3 : GitEnv where
  worktree_list := okRes "worktree /w/old\nHEAD 1234567890\nbranch refs/heads/wtold\n\n"
  for_each_ref_branches := okRes "wtold 1234567 100\nfresh abcd111 600000\nstale abcd222 100"
  for_each_ref_tracking := okRes ""
  symbolic_ref_origin_head := okRes ""
  rev_parse_verify := fun _ => failRes
  status_porcelain := fun _ => okRes ""
  rev_list_count := fun _ _ => okRes ""
  cherry := fun _ _ => okRes ""
  merge_base_is_ancestor := fun _ _ => failRes
  upstream_short := fun _ => okRes ""
  now := 1728000

/-- A repository whose cherry output marks every commit of every branch as
already present in main. -/
def envC4 : GitEnv where
  worktree_list := okRes ""
  for_each_ref_branches := okRes ""
  for_each_ref_tracking := okRes ""
  symbolic_ref_origin_head := okRes ""
  rev_parse_verify := fun _ => failRes
  status_porcelain := fun _ => okRes ""
  rev_list_count := fun _ _ => okRes ""
  cherry := fun _ _ => okRes "- 1111111 a\n- 2222222 b"
  merge_base_is_ancestor := fun _ _ => failRes
  upstream_short := fun _ => okRes ""
  now := 0

/-- A repository where every git invocation fails with no output. -/
def envC6 : GitEnv where
  worktree_list := failRes
  for_each_ref_branches := failRes
  for_each_ref_tracking := failRes
  symbolic_ref_origin_head := failRes
  rev_parse_verify := fun _ => failRes
  status_porcelain := fun _ => failRes
  rev_list_count := fun _ _ => failRes
  cherry := fun _ _ => failRes
  merge_base_is_ancestor := fun _ _ => failRes
  upstream_short := fun _ => failRes
  now := 0

/-- Two branches differing only in `is_current`. -/
def bC5 : BranchInfo := { name := "feat", commit := "abc1234", timestamp := 100 }

/-- `bC5` with `is_current` flipped. -/
def bC5flip : BranchInfo := { bC5 with is_current := true }

/-- An app state with a delete confirmation pending. -/
def sC7 : AppState :=
  { pending_delete := some ("r", "/r", { name := "b", commit := "c", timestamp := 0 }),
    repo_data := [("r", "/r", [{ name := "b", commit := "c", timestamp := 0 }])] }

/-- A worktree branch whose `git worktree remove` fails because it is locked. -/
def envC8 : DeleteEnv := ⟨⟨1, "", "fatal: working tree is locked"⟩, okRes ""⟩

/-- The branch being deleted in the `envC8` scenario. -/
def bC8 : BranchInfo :=
  { name := "feat", commit := "abc1234", timestamp := 0,
    worktree := some ⟨"/w/feat", "abc1234", "feat"⟩ }

/-- The app state in the `envC8` scenario. -/
def sC8 : AppState := { repo_data := [("r", "/r", [bC8])], all_rows := [("r", "/r", bC8)] }

/-- A worktree-list output with one detached-HEAD record between two branch
records. -/
def wtOutC9 : String :=
  String.append
    "worktree /p/app\nHEAD abc1234def\nbranch refs/heads/main\n\n"
    (String.append "worktree /p/detached\nHEAD 999234def\nbranch (detached)\n\n"
      "worktree /p/app-feat\nHEAD def5678abc\nbranch refs/heads/feat\n\n")

/-- The third record of `wtOutC9`, as its key/value dict. -/
def recFeatC9 : List (String × String) :=
  [("worktree", "/p/app-feat"), ("HEAD", "def5678abc"), ("branch", "refs/heads/feat")]

/-- The worktree `parse_worktrees` reports for `main` in `wtOutC9`. -/
def wtMainC9 : Worktree := ⟨"/p/app", "abc1234", "main"⟩

/-- A two-repository snapshot for exercising row removal. -/
def sC10 : AppState :=
  { repo_data :=
      [("r1", "/r1",
        [{ name := "a", commit := "c1", timestamp := 1 },
         { name := "b", commit := "c2", timestamp := 2 }]),
       ("r2", "/r2", [{ name := "b", commit := "c3", timestamp := 3 }])],
    all_rows :=
      [("r1", "/r1", { name := "a", commit := "c1", timestamp := 1 }),
       ("r1", "/r1", { name := "b", commit := "c2", timestamp := 2 }),
       ("r2", "/r2", { name := "b", commit := "c3", timestamp := 3 })] }

/-! ## Lemmas about the dict model -/

theorem dictSet_mem {α : Type} {d : List (String × α)} {k : String} {v : α}
    {p : String × α} (hp : p ∈ dictSet d k v) : p = (k, v) ∨ p ∈ d := by
  unfold dictSet at hp
  by_cases hany : d.any (fun q => q.1 == k)
  · rw [if_pos hany] at hp
    rcases List.mem_map.mp hp with ⟨q, hq, hfq⟩
    by_cases hk : q.1 == k
    · rw [if_pos hk] at hfq
      exact Or.inl hfq.symm
    · rw [if_neg hk] at hfq
      exact Or.inr (hfq ▸ hq)
  · rw [if_neg hany] at hp
    rcases List.mem_append.mp hp with h | h
    · exact Or.inr h
    · exact Or.inl (List.mem_singleton.mp h)

theorem dictSet_keys {α : Type} (d : List (String × α)) (k : String) (v : α) (k' : String) :
    k' ∈ (dictSet d k v).map Prod.fst ↔ k' ∈ d.map Prod.fst ∨ k' = k := by
  unfold dictSet
  by_cases hany : d.any (fun q => q.1 == k)
  · rw [if_pos hany]
    have hkeys : (d.map (fun p => if p.1 == k then (k, v) else p)).map Prod.fst
        = d.map Prod.fst := by
      rw [List.map_map]
      refine List.map_congr_left (fun q _ => ?_)
      by_cases hk : q.1 == k
      · simp only [Function.comp_apply, if_pos hk]
        exact (eq_of_beq hk).symm
      · simp only [Function.comp_apply, if_neg hk]
    rw [hkeys]
    constructor
    · exact Or.inl
    · rintro (h | rfl)
      · exact h
      · rcases List.any_eq_true.mp hany with ⟨q, hq, hqk⟩
        exact (eq_of_beq hqk) ▸ List.mem_map.mpr ⟨q, hq, rfl⟩
  · rw [if_neg hany, List.map_append, List.mem_append]
    simp

theorem dictSet_keys_nodup {α : Type} {d : List (String × α)} {k : String} {v : α}
    (hd : (d.map Prod.fst).Nodup) : ((dictSet d k v).map Prod.fst).Nodup := by
  unfold dictSet
  by_cases hany : d.any (fun q => q.1 == k)
  · rw [if_pos hany]
    have hkeys : (d.map (fun p => if p.1 == k then (k, v) else p)).map Prod.fst
        = d.map Prod.fst := by
      rw [List.map_map]
      refine List.map_congr_left (fun q _ => ?_)
      by_cases hk : q.1 == k
      · simp only [Function.comp_apply, if_pos hk]
        exact (eq_of_beq hk).symm
      · simp only [Function.comp_apply, if_neg hk]
    rw [hkeys]
    exact hd
  · rw [if_neg hany, List.map_append]
    rw [List.nodup_append]
    refine ⟨hd, List.nodup_singleton _, ?_⟩
    intro x hx hxk
    simp only [List.map_cons, List.map_nil, List.mem_singleton] at hxk
    subst hxk
    rcases List.mem_map.mp hx with ⟨q, hq, hqk⟩
    rw [List.any_eq_true] at hany
    exact hany ⟨q, hq, beq_iff_eq.mpr hqk⟩

theorem nodup_keys_mem_unique {α : Type} {d : List (String × α)}
    (hd : (d.map Prod.fst).Nodup) {k : String} {a b : α}
    (ha : (k, a) ∈ d) (hb : (k, b) ∈ d) : a = b := by
  induction d with
  | nil => cases ha
  | cons q rest ih =>
    rw [List.map_cons, List.nodup_cons] at hd
    rcases List.mem_cons.mp ha with ha' | ha' <;> rcases List.mem_cons.mp hb with hb' | hb'
    · rw [← ha'] at hb'
      exact (Prod.mk.injEq _ _ _ _ ▸ hb').2.symm
    · exact absurd (List.mem_map.mpr ⟨(k, b), hb', by rw [← ha']⟩) hd.1
    · exact absurd (List.mem_map.mpr ⟨(k, a), ha', by rw [← hb']⟩) hd.1
    · exact ih hd.2 ha' hb'

/-! ## Lemmas about `parse_branches` -/

/-- Every entry of the branch dict carries its own key as `name` and the
dataclass defaults in every field the parser does not set. -/
theorem parse_branches_entry {out : String} {p : String × BranchInfo}
    (hp : p ∈ parse_branches out) :
    p.2.name = p.1 ∧ p.2.worktree = none ∧ p.2.is_current = false ∧
      p.2.deletable = false ∧ p.2.delete_reason = none := by
  unfold parse_branches at hp
  generalize hl : pySplitlines (pyStrip out) = lines at hp
  clear hl
  suffices h : ∀ (lines : List String) (d : List (String × BranchInfo)),
      (∀ q ∈ d, q.2.name = q.1 ∧ q.2.worktree = none ∧ q.2.is_current = false ∧
        q.2.deletable = false ∧ q.2.delete_reason = none) →
      ∀ q ∈ lines.foldl
        (fun branches line =>
          match pySplitWS line with
          | name :: commit :: ts :: _ =>
            dictSet branches name { name := name, commit := commit, timestamp := pyInt ts }
          | _ => branches) d,
        q.2.name = q.1 ∧ q.2.worktree = none ∧ q.2.is_current = false ∧
          q.2.deletable = false ∧ q.2.delete_reason = none by
    exact h _ [] (by intro q hq; cases hq) p hp
  intro lines
  induction lines with
  | nil => intro d hd q hq; exact hd q hq
  | cons line rest ih =>
    intro d hd q hq
    rw [List.foldl_cons] at hq
    refine ih _ ?_ q hq
    intro r hr
    cases hws : pySplitWS line with
    | nil => rw [hws] at hr; exact hd r hr
    | cons n t1 =>
      cases t1 with
      | nil => rw [hws] at hr; exact hd r hr
      | cons c t2 =>
        cases t2 with
        | nil => rw [hws] at hr; exact hd r hr
        | cons ts t3 =>
          rw [hws] at hr
          rcases dictSet_mem hr with h | h
          · subst h; exact ⟨rfl, rfl, rfl, rfl, rfl⟩
          · exact hd r h

/-- The branch dict has pairwise distinct keys. -/
theorem parse_branches_keys_nodup (out : String) :
    ((parse_branches out).map Prod.fst).Nodup := by
  unfold parse_branches
  generalize pySplitlines (pyStrip out) = lines
  suffices h : ∀ (lines : List String) (d : List (String × BranchInfo)),
      (d.map Prod.fst).Nodup →
      ((lines.foldl
        (fun branches line =>
          match pySplitWS line with
          | name :: commit :: ts :: _ =>
            dictSet branches name { name := name, commit := commit, timestamp := pyInt ts }
          | _ => branches) d).map Prod.fst).Nodup by
    exact h _ [] List.nodup_nil
  intro lines
  induction lines with
  | nil => intro d hd; exact hd
  | cons line rest ih =>
    intro d hd
    rw [List.foldl_cons]
    refine ih _ ?_
    cases hws : pySplitWS line with
    | nil => exact hd
    | cons n t1 =>
      cases t1 with
      | nil => exact hd
      | cons c t2 =>
        cases t2 with
        | nil => exact hd
        | cons ts t3 => exact dictSet_keys_nodup hd

/-! ## Lemmas about the classifier stages -/

theorem attachWorktree_eq_none {env : GitEnv} {w : List (String × Worktree)} {cutoff : Int}
    {cwd name : String} {info : BranchInfo} :
    attachWorktree env w cutoff cwd name info = none ↔
      dictGet? w name = none ∧ info.timestamp < cutoff := by
  unfold attachWorktree
  cases dictGet? w name with
  | none =>
    simp only [true_and]
    by_cases h : info.timestamp < cutoff
    · simp [h]
    · simp [h]
  | some wt => simp

theorem attachWorktree_some_fields {env : GitEnv} {w : List (String × Worktree)} {cutoff : Int}
    {cwd name : String} {info i1 : BranchInfo}
    (h : attachWorktree env w cutoff cwd name info = some i1) :
    i1.name = info.name ∧ i1.deletable = info.deletable ∧
      i1.delete_reason = info.delete_reason := by
  unfold attachWorktree at h
  split at h
  · cases h
    exact ⟨rfl, rfl, rfl⟩
  · split at h
    · cases h
    · cases h
      exact ⟨rfl, rfl, rfl⟩

theorem addMainCounts_fields (env : GitEnv) (m : Option String) (name : String)
    (i : BranchInfo) :
    (addMainCounts env m name i).name = i.name ∧
      (addMainCounts env m name i).is_current = i.is_current ∧
      (addMainCounts env m name i).worktree = i.worktree ∧
      (addMainCounts env m name i).deletable = i.deletable ∧
      (addMainCounts env m name i).delete_reason = i.delete_reason := by
  unfold addMainCounts
  split
  · exact ⟨rfl, rfl, rfl, rfl, rfl⟩
  · exact ⟨rfl, rfl, rfl, rfl, rfl⟩

theorem addUpstreamCounts_fields (env : GitEnv) (name : String) (i : BranchInfo) :
    (addUpstreamCounts env name i).name = i.name ∧
      (addUpstreamCounts env name i).is_current = i.is_current ∧
      (addUpstreamCounts env name i).worktree = i.worktree ∧
      (addUpstreamCounts env name i).deletable = i.deletable ∧
      (addUpstreamCounts env name i).delete_reason = i.delete_reason := by
  unfold addUpstreamCounts
  split
  · dsimp only
    split
    · exact ⟨rfl, rfl, rfl, rfl, rfl⟩
    · exact ⟨rfl, rfl, rfl, rfl, rfl⟩
  · exact ⟨rfl, rfl, rfl, rfl, rfl⟩

theorem classify_fields (env : GitEnv) (g : List (String × Bool)) (m : Option String)
    (name : String) (i : BranchInfo) :
    (classify env g m name i).name = i.name ∧
      (classify env g m name i).is_current = i.is_current ∧
      (classify env g m name i).worktree = i.worktree := by
  unfold classify
  split
  · split
    · exact ⟨rfl, rfl, rfl⟩
    · split
      · exact ⟨rfl, rfl, rfl⟩
      · split
        · exact ⟨rfl, rfl, rfl⟩
        · exact ⟨rfl, rfl, rfl⟩
  · exact ⟨rfl, rfl, rfl⟩

/-- The verdict the classification stage leaves on a branch whose incoming
fields still hold the parser defaults: `(false, none)` when the stage is
skipped, otherwise exactly the spec's first-match rule chain. -/
theorem classify_spec (env : GitEnv) (g : List (String × Bool)) (m : Option String)
    (name : String) (i : BranchInfo) (hdel : i.deletable = false)
    (hrea : i.delete_reason = none) :
    ((classify env g m name i).deletable, (classify env g m name i).delete_reason) =
      if pyStrNeOpt name m && !i.is_current then
        specDeleteVerdict ((dictGet? g name).getD false)
          (pyTruthyStr m && is_ancestor env name (m.getD ""))
          (pyTruthyStr m && is_squash_merged env name (m.getD ""))
      else (false, none) := by
  unfold classify specDeleteVerdict
  by_cases h1 : pyStrNeOpt name m && !i.is_current
  · rw [if_pos h1, if_pos h1]
    by_cases h2 : (dictGet? g name).getD false
    · rw [if_pos h2, if_pos h2]
    · rw [if_neg h2, if_neg h2]
      by_cases h3 : pyTruthyStr m && is_ancestor env name (m.getD "")
      · rw [if_pos h3, if_pos h3]
      · rw [if_neg h3, if_neg h3]
        by_cases h4 : pyTruthyStr m && is_squash_merged env name (m.getD "")
        · rw [if_pos h4, if_pos h4]
        · rw [if_neg h4, if_neg h4, hdel, hrea]
  · rw [if_neg h1, if_neg h1, hdel, hrea]

theorem processBranch_eq_some {env : GitEnv} {w : List (String × Worktree)}
    {g : List (String × Bool)} {m : Option String} {cutoff : Int} {cwd name : String}
    {info b : BranchInfo} :
    processBranch env w g m cutoff cwd name info = some b ↔
      ∃ i1, attachWorktree env w cutoff cwd name info = some i1 ∧
        b = classify env g m name (addUpstreamCounts env name (addMainCounts env m name i1)) := by
  unfold processBranch
  rw [Option.map_eq_some']
  constructor
  · rintro ⟨i1, h1, h2⟩
    exact ⟨i1, h1, h2.symm⟩
  · rintro ⟨i1, h1, h2⟩
    exact ⟨i1, h1, h2.symm⟩

/-- Membership in a discovery result, unfolded to the per-branch loop body. -/
theorem mem_discover_repo {env : GitEnv} {recent_days : Int} {cwd : String} {b : BranchInfo} :
    b ∈ discover_repo env recent_days cwd ↔
      ∃ p ∈ parse_branches (run_git env.for_each_ref_branches),
        processBranch env (parse_worktrees (run_git env.worktree_list))
          (parse_tracking_status (run_git env.for_each_ref_tracking))
          (detect_main_branch env) (env.now - recent_days * 86400) cwd p.1 p.2 = some b := by
  unfold discover_repo
  exact List.mem_filterMap

/-- The fields of a discovered branch that the post-attach stages leave alone,
related back to its dict entry. -/
theorem discovered_fields {env : GitEnv} {recent_days : Int} {cwd : String} {b : BranchInfo}
    {p : String × BranchInfo}
    (hp : p ∈ parse_branches (run_git env.for_each_ref_branches))
    (hproc : processBranch env (parse_worktrees (run_git env.worktree_list))
      (parse_tracking_status (run_git env.for_each_ref_tracking))
      (detect_main_branch env) (env.now - recent_days * 86400) cwd p.1 p.2 = some b) :
    b.name = p.1 ∧
      ((pyStrNeOpt b.name (detect_main_branch env) && !b.is_current) = false →
        b.deletable = false ∧ b.delete_reason = none) ∧
      ((pyStrNeOpt b.name (detect_main_branch env) && !b.is_current) = true →
        (b.deletable, b.delete_reason) =
          specDeleteVerdict
            ((dictGet? (parse_tracking_status (run_git env.for_each_ref_tracking)) b.name).getD
              false)
            (pyTruthyStr (detect_main_branch env) &&
              is_ancestor env b.name ((detect_main_branch env).getD ""))
            (pyTruthyStr (detect_main_branch env) &&
              is_squash_merged env b.name ((detect_main_branch env).getD ""))) := by
  rcases processBranch_eq_some.mp hproc with ⟨i1, hatt, hb⟩
  have hinfo := parse_branches_entry hp
  have hi1 := attachWorktree_some_fields hatt
  have hmc := addMainCounts_fields env (detect_main_branch env) p.1 i1
  have huc := addUpstreamCounts_fields env p.1 (addMainCounts env (detect_main_branch env) p.1 i1)
  set g := parse_tracking_status (run_git env.for_each_ref_tracking) with hgdef
  set x := addUpstreamCounts env p.1 (addMainCounts env (detect_main_branch env) p.1 i1)
    with hxdef
  have hcf := classify_fields env g (detect_main_branch env) p.1 x
  have hxname : x.name = p.1 := by rw [hxdef, huc.1, hmc.1, hi1.1, hinfo.1]
  have hxdel : x.deletable = false := by rw [hxdef, huc.2.2.2.1, hmc.2.2.2.1, hi1.2.1, hinfo.2.2.2.1]
  have hxrea : x.delete_reason = none := by
    rw [hxdef, huc.2.2.2.2, hmc.2.2.2.2, hi1.2.2]
    exact hinfo.2.2.2.2
  have hv := classify_spec env g (detect_main_branch env) p.1 x hxdel hxrea
  have hbname : b.name = p.1 := by rw [hb, hcf.1, hxname]
  have hbcur : b.is_current = x.is_current := by rw [hb, hcf.2.1]
  refine ⟨hbname, ?_, ?_⟩
  · intro hskip
    rw [hbname, hbcur] at hskip
    rw [hskip] at hv
    simp only [Bool.false_eq_true, if_false] at hv
    rw [Prod.mk.injEq] at hv
    rw [hb]
    exact hv
  · intro hrun
    rw [hbname, hbcur] at hrun
    rw [if_pos hrun] at hv
    rw [hbname, hb]
    exact hv

/-! ## Claim C1 -/

/-- C1 as stated is false of the code: `discover_repo envC1 0 "/elsewhere"`
contains a branch with a present worktree that the automatic rules mark
`deletable` with reason "upstream gone" — the classification step skips only the
main branch and the current branch, not worktree branches. -/
theorem C1_counterexample :
    bC1gone ∈ discover_repo envC1 0 "/elsewhere" ∧ bC1gone.worktree.isSome = true ∧
      bC1gone.deletable = true := by
  refine ⟨by decide, rfl, rfl⟩

/-- C1 (amended): a `BranchInfo` with a present worktree is never marked
deletable by the automatic rules when it is the current branch (`is_current`,
i.e. the working directory lies at or under that worktree); worktree presence
alone does not suppress the rules. -/
theorem C1_current_worktree_not_deletable (env : GitEnv) (recent_days : Int) (cwd : String)
    (b : BranchInfo) (hb : b ∈ discover_repo env recent_days cwd)
    (_hwt : b.worktree.isSome = true) (hcur : b.is_current = true) :
    b.deletable = false ∧ b.delete_reason = none := by
  rcases mem_discover_repo.mp hb with ⟨p, hp, hproc⟩
  refine (discovered_fields hp hproc).2.1 ?_
  rw [hcur]
  simp

/-- The amended C1 at a concrete input: the `envC1` worktree branch discovered
from inside its own worktree is current and not deletable. -/
theorem C1_witness :
    bC1cur.deletable = false ∧ bC1cur.delete_reason = none :=
  C1_current_worktree_not_deletable envC1 0 "/w/feat" bC1cur (by decide) rfl rfl

/-! ## Claim C2 -/

/-- C2: the deletion-eligibility step of `discover_repo` skips the detected main
branch and the current branch (leaving `deletable = false` and no reason), and
for every other branch its verdict is exactly the first-match evaluation of the
three rules in order — upstream gone, then merged, then squash-merged — so a
branch that is both upstream-gone and an ancestor of main reads "upstream gone". -/
theorem C2_classification_order (env : GitEnv) (recent_days : Int) (cwd : String)
    (b : BranchInfo) (hb : b ∈ discover_repo env recent_days cwd) :
    (detect_main_branch env = some b.name ∨ b.is_current = true →
      b.deletable = false ∧ b.delete_reason = none) ∧
    (pyStrNeOpt b.name (detect_main_branch env) = true → b.is_current = false →
      (b.deletable, b.delete_reason) =
        specDeleteVerdict
          ((dictGet? (parse_tracking_status (run_git env.for_each_ref_tracking)) b.name).getD
            false)
          (pyTruthyStr (detect_main_branch env) &&
            is_ancestor env b.name ((detect_main_branch env).getD ""))
          (pyTruthyStr (detect_main_branch env) &&
            is_squash_merged env b.name ((detect_main_branch env).getD ""))) := by
  rcases mem_discover_repo.mp hb with ⟨p, hp, hproc⟩
  have h := discovered_fields hp hproc
  constructor
  · rintro (hmain | hcur)
    · refine h.2.1 ?_
      have hne : pyStrNeOpt b.name (detect_main_branch env) = false := by
        rw [hmain]
        unfold pyStrNeOpt
        simp
      rw [hne]
      rfl
    · refine h.2.1 ?_
      rw [hcur]
      simp
  · intro hne hcur
    refine h.2.2 ?_
    rw [hne, hcur]
    rfl

/-- C2 at a concrete input: the `dev` branch of `envC2` is not main and not
current, and its verdict equals the spec's rule chain (here: "merged"). -/
theorem C2_witness :
    (bC2dev.deletable, bC2dev.delete_reason) =
      specDeleteVerdict
        ((dictGet? (parse_tracking_status (run_git envC2.for_each_ref_tracking))
          bC2dev.name).getD false)
        (pyTruthyStr (detect_main_branch envC2) &&
          is_ancestor envC2 bC2dev.name ((detect_main_branch envC2).getD ""))
        (pyTruthyStr (detect_main_branch envC2) &&
          is_squash_merged envC2 bC2dev.name ((detect_main_branch envC2).getD "")) :=
  (C2_classification_order envC2 0 "/x" bC2dev (by decide)).2 (by decide) (by decide)

/-! ## Claim C3 -/

/-- C3: for every branch in the parsed branch list, discovery drops it exactly
when it has no linked worktree and its commit timestamp is strictly older than
`now - recent_days` days; without a worktree but at or after the cutoff it is
included, and with a worktree it is included regardless of its timestamp. -/
theorem C3_recency_filter (env : GitEnv) (recent_days : Int) (cwd : String)
    (name : String) (info : BranchInfo)
    (hmem : (name, info) ∈ parse_branches (run_git env.for_each_ref_branches)) :
    (dictGet? (parse_worktrees (run_git env.worktree_list)) name = none →
      info.timestamp < env.now - recent_days * 86400 →
      ∀ b ∈ discover_repo env recent_days cwd, b.name ≠ name) ∧
    (dictGet? (parse_worktrees (run_git env.worktree_list)) name = none →
      ¬ info.timestamp < env.now - recent_days * 86400 →
      ∃ b ∈ discover_repo env recent_days cwd, b.name = name) ∧
    ((dictGet? (parse_worktrees (run_git env.worktree_list)) name).isSome = true →
      ∃ b ∈ discover_repo env recent_days cwd, b.name = name) := by
  have hinc : attachWorktree env (parse_worktrees (run_git env.worktree_list))
      (env.now - recent_days * 86400) cwd name info ≠ none →
      ∃ b ∈ discover_repo env recent_days cwd, b.name = name := by
    intro hne
    rcases Option.ne_none_iff_exists'.mp hne with ⟨i1, hi1⟩
    have hproc : processBranch env (parse_worktrees (run_git env.worktree_list))
        (parse_tracking_status (run_git env.for_each_ref_tracking))
        (detect_main_branch env) (env.now - recent_days * 86400) cwd name info =
        some (classify env (parse_tracking_status (run_git env.for_each_ref_tracking))
          (detect_main_branch env) name
          (addUpstreamCounts env name
            (addMainCounts env (detect_main_branch env) name i1))) := by
      unfold processBranch
      rw [hi1]
      rfl
    exact ⟨_, mem_discover_repo.mpr ⟨(name, info), hmem, hproc⟩,
      (discovered_fields hmem hproc).1⟩
  refine ⟨?_, ?_, ?_⟩
  · intro hwt hts b hb hbname
    rcases mem_discover_repo.mp hb with ⟨p, hp, hproc⟩
    have hp1 : p.1 = name := by rw [← (discovered_fields hp hproc).1, hbname]
    have hpmem : (name, p.2) ∈ parse_branches (run_git env.for_each_ref_branches) := by
      rw [← hp1]
      exact hp
    have hpeq : p.2 = info :=
      nodup_keys_mem_unique (parse_branches_keys_nodup _) hpmem hmem
    rw [hp1, hpeq] at hproc
    unfold processBranch at hproc
    rw [attachWorktree_eq_none.mpr ⟨hwt, hts⟩] at hproc
    simp at hproc
  · intro hwt hts
    refine hinc ?_
    rw [Ne, attachWorktree_eq_none]
    rintro ⟨h1, h2⟩
    exact hts h2
  · intro hwt
    refine hinc ?_
    rw [Ne, attachWorktree_eq_none]
    rintro ⟨h1, h2⟩
    rw [h1] at hwt
    cases hwt

/-- C3 at concrete inputs: in `envC3` (20 days in, 14-day window) the stale
ref-only branch is absent, the fresh ref-only branch present, and the old
worktree branch present. -/
theorem C3_witness :
    (∀ b ∈ discover_repo envC3 14 "/x", b.name ≠ "stale") ∧
      (∃ b ∈ discover_repo envC3 14 "/x", b.name = "fresh") ∧
      (∃ b ∈ discover_repo envC3 14 "/x", b.name = "wtold") :=
  ⟨(C3_recency_filter envC3 14 "/x" "stale"
      { name := "stale", commit := "abcd222", timestamp := 100 } (by decide)).1
      (by decide) (by decide),
    (C3_recency_filter envC3 14 "/x" "fresh"
      { name := "fresh", commit := "abcd111", timestamp := 600000 } (by decide)).2.1
      (by decide) (by decide),
    (C3_recency_filter envC3 14 "/x" "wtold"
      { name := "wtold", commit := "1234567", timestamp := 100 } (by decide)).2.2
      (by decide)⟩

/-! ## Claim C4 -/

/-- C4: `is_squash_merged` is true iff the (stripped) cherry output is non-empty
and every one of its lines starts with `-`; in particular it is false on empty
cherry output, so a branch with no unique commits is not classified
squash-merged. -/
theorem C4_squash_merged_iff (env : GitEnv) (branch main : String) :
    is_squash_merged env branch main = true ↔
      pyStrip (run_git (env.cherry main branch)) ≠ "" ∧
        ∀ line ∈ pySplitlines (pyStrip (run_git (env.cherry main branch))),
          pyStartswith line "-" = true := by
  unfold is_squash_merged
  dsimp only
  by_cases h : pyStrip (run_git (env.cherry main branch)) = ""
  · rw [if_pos (beq_iff_eq.mpr h)]
    simp [h]
  · rw [if_neg (by simp [h])]
    rw [List.all_eq_true]
    simp [h]

/-- C4 at a concrete input: `envC4`'s cherry output is non-empty with every line
marked `-`, so the check reports squash-merged. -/
theorem C4_witness : is_squash_merged envC4 "feat" "main" = true :=
  (C4_squash_merged_iff envC4 "feat" "main").mpr ⟨by decide, by decide⟩

/-! ## Claim C5 -/

theorem data_fingerprint_append (d1 d2 : List (String × String × List BranchInfo)) :
    data_fingerprint (d1 ++ d2) = data_fingerprint d1 ++ data_fingerprint d2 :=
  List.flatMap_append d1 d2 _

theorem data_fingerprint_cons (e : String × String × List BranchInfo)
    (d : List (String × String × List BranchInfo)) :
    data_fingerprint (e :: d) = e.2.2.map (fingerprintRow e.1) ++ data_fingerprint d :=
  List.flatMap_cons ..

/-- Two branches produce the same fingerprint row exactly when they agree on
every field the fingerprint samples — all of them except `is_current`. -/
theorem fingerprintRow_eq_iff (name : String) (b b' : BranchInfo) :
    fingerprintRow name b = fingerprintRow name b' ↔
      (b.name = b'.name ∧ b.commit = b'.commit ∧ b.timestamp = b'.timestamp ∧
        worktreePathStr b = worktreePathStr b' ∧ b.dirty = b'.dirty ∧
        b.ahead_upstream = b'.ahead_upstream ∧ b.behind_upstream = b'.behind_upstream ∧
        b.ahead_main = b'.ahead_main ∧ b.behind_main = b'.behind_main ∧
        b.deletable = b'.deletable ∧ b.delete_reason = b'.delete_reason ∧
        b.is_default = b'.is_default) := by
  unfold fingerprintRow
  rw [FingerprintRow.mk.injEq]
  tauto

/-- C5 (amended): the fingerprint is a function of the snapshot (reflexivity is
definitional), and for any snapshot and any single `BranchInfo` in it, the
fingerprint is unchanged exactly when the twelve sampled fields — name, commit,
timestamp, worktree path, dirty, the four ahead/behind counts, deletable,
delete_reason and is_default — are unchanged; so changing any one of those
fields changes the fingerprint, while `is_current` is not sampled. -/
theorem C5_fingerprint_sensitivity (pre post : List (String × String × List BranchInfo))
    (name path : String) (bs1 bs2 : List BranchInfo) (b b' : BranchInfo) :
    data_fingerprint (pre ++ (name, path, bs1 ++ b :: bs2) :: post) =
      data_fingerprint (pre ++ (name, path, bs1 ++ b' :: bs2) :: post) ↔
      (b.name = b'.name ∧ b.commit = b'.commit ∧ b.timestamp = b'.timestamp ∧
        worktreePathStr b = worktreePathStr b' ∧ b.dirty = b'.dirty ∧
        b.ahead_upstream = b'.ahead_upstream ∧ b.behind_upstream = b'.behind_upstream ∧
        b.ahead_main = b'.ahead_main ∧ b.behind_main = b'.behind_main ∧
        b.deletable = b'.deletable ∧ b.delete_reason = b'.delete_reason ∧
        b.is_default = b'.is_default) := by
  rw [← fingerprintRow_eq_iff name b b']
  rw [data_fingerprint_append, data_fingerprint_append, data_fingerprint_cons,
    data_fingerprint_cons]
  dsimp only
  rw [List.map_append, List.map_append, List.map_cons, List.map_cons]
  constructor
  · intro h
    simp only [List.append_assoc, List.cons_append] at h
    have h1 := List.append_cancel_left h
    have h2 := List.append_cancel_left h1
    injection h2 with h3 h4
  · intro h
    rw [h]

/-- C5 as stated is false of the code: flipping only `is_current` on a branch
leaves `_data_fingerprint` unchanged, because the fingerprint row does not
sample `is_current`. -/
theorem C5_counterexample :
    bC5 ≠ bC5flip ∧ bC5.is_current ≠ bC5flip.is_current ∧
      data_fingerprint [("r", "/r", [bC5])] = data_fingerprint [("r", "/r", [bC5flip])] :=
  ⟨by decide, by decide, by decide⟩

/-! ## Claim C7 -/

/-- C7: while a delete confirmation is pending, `_apply_refresh` returns without
swapping anything — the state, its `repo_data` included, is unchanged — and the
periodic `_refresh_tick` does not start a refresh at all; this holds in every
state, so no snapshot swap ever happens while a delete confirmation is pending. -/
theorem C7_pending_delete_blocks (s : AppState)
    (new_data : List (String × String × List BranchInfo))
    (h : s.pending_delete.isSome = true) :
    apply_refresh s new_data = s ∧ refresh_tick_starts s = false := by
  unfold apply_refresh refresh_tick_starts
  rw [if_pos h, if_pos h]
  exact ⟨rfl, rfl⟩

/-- C7 at a concrete input: `sC7` has a pending delete, so a refresh with an
empty snapshot is rejected and the tick stays idle. -/
theorem C7_witness : apply_refresh sC7 [] = sC7 ∧ refresh_tick_starts sC7 = false :=
  C7_pending_delete_blocks sC7 [] rfl

/-! ## Claim C8 -/

/-- C8: when the deleted branch has a linked worktree, `_do_delete`'s first git
mutation is always the worktree removal and the branch-ref removal can only come
after it (never the reverse order); and if the worktree removal returns an
error, the branch deletion is not attempted, the snapshot is left untouched, and
the error is only reported to the user. -/
theorem C8_delete_order (env : DeleteEnv) (s : AppState) (repo_name repo_path : String)
    (b : BranchInfo) :
    (∀ wt, b.worktree = some wt →
      ((do_delete env s repo_name repo_path b).1 =
          [.remove_worktree repo_path wt.path] ∨
        (do_delete env s repo_name repo_path b).1 =
          [.remove_worktree repo_path wt.path, .remove_branch repo_path b.name])) ∧
    (∀ wt err, b.worktree = some wt → delete_worktree env.worktree_remove = some err →
      (do_delete env s repo_name repo_path b).1 = [.remove_worktree repo_path wt.path] ∧
        (do_delete env s repo_name repo_path b).2.1 = s ∧
        (do_delete env s repo_name repo_path b).2.2 = ["Error: " ++ err]) := by
  constructor
  · intro wt hwt
    unfold do_delete
    rw [hwt]
    cases delete_worktree env.worktree_remove
    · cases delete_branch env.branch_delete
      · exact Or.inr rfl
      · exact Or.inr rfl
    · exact Or.inl rfl
  · intro wt err hwt herr
    unfold do_delete
    rw [hwt, herr]
    exact ⟨rfl, rfl, rfl⟩

/-- C8 at a concrete input: deleting `envC8`'s locked worktree branch issues
only the worktree removal, keeps the snapshot, and reports the git error. -/
theorem C8_witness :
    (do_delete envC8 sC8 "r" "/r" bC8).1 = [.remove_worktree "/r" "/w/feat"] ∧
      (do_delete envC8 sC8 "r" "/r" bC8).2.1 = sC8 ∧
      (do_delete envC8 sC8 "r" "/r" bC8).2.2 = ["Error: fatal: working tree is locked"] :=
  (C8_delete_order envC8 sC8 "r" "/r" bC8).2 ⟨"/w/feat", "abc1234", "feat"⟩
    "fatal: working tree is locked" rfl (by decide)

/-! ## Claim C6 -/

/-- C6 as stated is false of the code: a missing git binary is not absorbed.
`subprocess.run` raises `FileNotFoundError` and no query-layer function has a
handler, so the exception propagates (shown here for `is_dirty`, which
therefore does not return its `false` default). -/
theorem C6_counterexample :
    is_dirty_spawned (Except.error SpawnErr.fileNotFound) =
        Except.error SpawnErr.fileNotFound ∧
      is_dirty_spawned (Except.error SpawnErr.fileNotFound) ≠ Except.ok false :=
  ⟨rfl, fun h => Except.noConfusion h⟩

/-- C6 (amended): when every git invocation completes with non-zero status and
no stdout ("no data"), each query-layer operation returns its empty or negative
default — empty maps from the three parsers, no main branch, `false` from
`is_dirty`, the ancestry and squash checks, `(0,0)` from `ahead_behind` — and
`discover_repo` returns the empty list rather than raising. -/
theorem C6_failure_defaults (env : GitEnv)
    (h1 : env.worktree_list.stdout = "")
    (h2 : env.for_each_ref_branches.stdout = "")
    (h3 : env.for_each_ref_tracking.stdout = "")
    (h4 : env.symbolic_ref_origin_head.stdout = "")
    (h5 : ∀ n, (env.rev_parse_verify n).returncode ≠ 0)
    (h6 : ∀ p, (env.status_porcelain p).stdout = "")
    (h7 : ∀ a b, (env.rev_list_count a b).stdout = "")
    (h8 : ∀ a b, (env.cherry a b).stdout = "")
    (h9 : ∀ a b, (env.merge_base_is_ancestor a b).returncode ≠ 0) :
    parse_worktrees (run_git env.worktree_list) = [] ∧
      parse_branches (run_git env.for_each_ref_branches) = [] ∧
      parse_tracking_status (run_git env.for_each_ref_tracking) = [] ∧
      detect_main_branch env = none ∧
      (∀ p, is_dirty env p = false) ∧
      (∀ a b, ahead_behind env a b = (0, 0)) ∧
      (∀ a b, is_ancestor env a b = false) ∧
      (∀ a b, is_squash_merged env a b = false) ∧
      (∀ recent_days cwd, discover_repo env recent_days cwd = []) := by
  have hbr : parse_branches (run_git env.for_each_ref_branches) = [] := by
    unfold run_git
    rw [h2]
    rfl
  refine ⟨?_, hbr, ?_, ?_, ?_, ?_, ?_, ?_, ?_⟩
  · unfold run_git
    rw [h1]
    rfl
  · unfold run_git
    rw [h3]
    rfl
  · unfold detect_main_branch run_git
    rw [h4]
    have hma : ((env.rev_parse_verify "main").returncode == 0) = false :=
      beq_eq_false_iff_ne.mpr (h5 "main")
    have hmb : ((env.rev_parse_verify "master").returncode == 0) = false :=
      beq_eq_false_iff_ne.mpr (h5 "master")
    have hps : pyStrip "" = "" := rfl
    simp [List.find?, hps, hma, hmb]
  · intro p
    unfold is_dirty run_git
    rw [h6 p]
    rfl
  · intro a b
    unfold ahead_behind run_git
    rw [h7 a b]
    rfl
  · intro a b
    unfold is_ancestor
    exact beq_eq_false_iff_ne.mpr (h9 a b)
  · intro a b
    unfold is_squash_merged run_git
    rw [h8 b a]
    rfl
  · intro recent_days cwd
    unfold discover_repo
    rw [hbr]
    rfl

/-- The amended C6 at a concrete input: in `envC6` every invocation fails, and
every operation yields its default. -/
theorem C6_witness :
    discover_repo envC6 14 "/x" = [] ∧ is_dirty envC6 "/p" = false ∧
      ahead_behind envC6 "a" "b" = (0, 0) ∧ is_ancestor envC6 "a" "b" = false ∧
      is_squash_merged envC6 "a" "b" = false ∧ detect_main_branch envC6 = none := by
  have h := C6_failure_defaults envC6 rfl rfl rfl rfl
    (fun _ => (by decide : (1 : Int) ≠ 0)) (fun p => rfl) (fun a b => rfl) (fun a b => rfl)
    (fun _ _ => (by decide : (1 : Int) ≠ 0))
  exact ⟨h.2.2.2.2.2.2.2.2 14 "/x", h.2.2.2.2.1 "/p", h.2.2.2.2.2.1 "a" "b",
    h.2.2.2.2.2.2.1 "a" "b", h.2.2.2.2.2.2.2.1 "a" "b", h.2.2.2.1⟩

/-! ## Claim C10 -/

theorem remove_branch_entry_map {d : List (String × String × List BranchInfo)}
    (hnodup : (d.map Prod.fst).Nodup) (rn bn : String) :
    remove_branch_entry rn bn d =
      d.map (fun e =>
        if e.1 = rn then (e.1, e.2.1, e.2.2.filter (fun b => b.name != bn)) else e) := by
  induction d with
  | nil => rfl
  | cons e rest ih =>
    rw [List.map_cons, List.nodup_cons] at hnodup
    unfold remove_branch_entry
    by_cases he : e.1 == rn
    · have he' : e.1 = rn := eq_of_beq he
      rw [if_pos he, List.map_cons, if_pos he']
      congr 1
      have hid : rest.map (fun e' =>
          if e'.1 = rn then (e'.1, e'.2.1, e'.2.2.filter (fun b => b.name != bn)) else e') =
          rest.map id := by
        refine List.map_congr_left (fun e' he'' => ?_)
        rw [if_neg, id]
        intro hc
        exact hnodup.1 (List.mem_map.mpr ⟨e', he'', by rw [hc, he']⟩)
      rw [hid, List.map_id]
    · have he' : ¬ e.1 = rn := fun hc => he (beq_iff_eq.mpr hc)
      rw [if_neg he, List.map_cons, if_neg he']
      congr 1
      exact ih hnodup.2

/-- C10: on a snapshot (repo names pairwise distinct), `_remove_row` removes
exactly the flat rows with the given repo and branch name, and in `repo_data`
filters only the named branch out of the named repository's list — every other
repository's entry is untouched and the ordering of the remaining branches and
repositories is preserved (both results are expressed as order-preserving
`map`/`filter` of the old snapshot). -/
theorem C10_remove_row_frame (s : AppState) (rn bn : String)
    (hnodup : (s.repo_data.map Prod.fst).Nodup) :
    (remove_row s rn bn).repo_data =
      s.repo_data.map (fun e =>
        if e.1 = rn then (e.1, e.2.1, e.2.2.filter (fun b => b.name != bn)) else e) ∧
    (remove_row s rn bn).all_rows =
      s.all_rows.filter (fun r => !(r.1 == rn && r.2.2.name == bn)) := by
  unfold remove_row
  dsimp only
  split
  · exact ⟨remove_branch_entry_map hnodup rn bn, rfl⟩
  · exact ⟨remove_branch_entry_map hnodup rn bn, rfl⟩

/-- C10 at a concrete input: removing branch `b` of repo `r1` from the
two-repository snapshot `sC10`. -/
theorem C10_witness :
    (remove_row sC10 "r1" "b").repo_data =
      sC10.repo_data.map (fun e =>
        if e.1 = "r1" then (e.1, e.2.1, e.2.2.filter (fun b => b.name != "b")) else e) ∧
    (remove_row sC10 "r1" "b").all_rows =
      sC10.all_rows.filter (fun r => !(r.1 == "r1" && r.2.2.name == "b")) :=
  C10_remove_row_frame sC10 "r1" "b" (by decide)

/-! ## Claim C9 -/

/-- The shape of an entry the flush step can add: built from a record whose
`branch` field exists and is not detached, keyed by the stripped branch name. -/
def recordEntry (r : List (String × String)) (p : String × Worktree) : Prop :=
  ∃ braw, dictGet? r "branch" = some braw ∧ pyStartswith braw "(" = false ∧
    p = (stripPfx braw "refs/heads/",
      ⟨(dictGet? r "worktree").getD "", pyTake ((dictGet? r "HEAD").getD "") 7,
        stripPfx braw "refs/heads/"⟩)

theorem flushWorktree_mem {wts : List (String × Worktree)} {r : List (String × String)}
    {p : String × Worktree} (hp : p ∈ flushWorktree wts r) :
    p ∈ wts ∨ recordEntry r p := by
  unfold flushWorktree at hp
  split at hp
  · rename_i braw hbraw
    split at hp
    · exact Or.inl hp
    · rcases dictSet_mem hp with h | h
      · rename_i hdet
        exact Or.inr ⟨braw, hbraw, Bool.not_eq_true _ ▸ hdet, h⟩
      · exact Or.inl h
  · exact Or.inl hp

theorem parseGo_records : ∀ (lines : List String) (wts : List (String × Worktree))
    (current : List (String × String)),
    parseWorktreesGo lines wts current = (wtRecordsGo lines current).foldl flushWorktree wts
  | [], _, _ => rfl
  | line :: rest, wts, current => by
    unfold parseWorktreesGo wtRecordsGo
    by_cases h : pyStrip line == ""
    · rw [if_pos h, if_pos h, List.foldl_cons]
      exact parseGo_records rest (flushWorktree wts current) []
    · rw [if_neg h, if_neg h]
      exact parseGo_records rest wts _

theorem foldl_flush_mem : ∀ (rs : List (List (String × String)))
    (wts : List (String × Worktree)) (p : String × Worktree),
    p ∈ rs.foldl flushWorktree wts → p ∈ wts ∨ ∃ r ∈ rs, recordEntry r p
  | [], _, _, hp => Or.inl hp
  | r :: rest, wts, p, hp => by
    rw [List.foldl_cons] at hp
    rcases foldl_flush_mem rest (flushWorktree wts r) p hp with h | ⟨r', hr', hshape⟩
    · rcases flushWorktree_mem h with h' | h'
      · exact Or.inl h'
      · exact Or.inr ⟨r, List.mem_cons_self r rest, h'⟩
    · exact Or.inr ⟨r', List.mem_cons_of_mem r hr', hshape⟩

theorem flushWorktree_keys_mono {wts : List (String × Worktree)} {r : List (String × String)}
    {k : String} (hk : k ∈ wts.map Prod.fst) : k ∈ (flushWorktree wts r).map Prod.fst := by
  unfold flushWorktree
  split
  · split
    · exact hk
    · exact (dictSet_keys _ _ _ _).mpr (Or.inl hk)
  · exact hk

theorem flushWorktree_keys_add {wts : List (String × Worktree)} {r : List (String × String)}
    {braw : String} (hb : dictGet? r "branch" = some braw)
    (hdet : pyStartswith braw "(" = false) :
    stripPfx braw "refs/heads/" ∈ (flushWorktree wts r).map Prod.fst := by
  unfold flushWorktree
  rw [hb]
  dsimp only
  rw [if_neg (by rw [hdet]; exact Bool.false_ne_true)]
  exact (dictSet_keys _ _ _ _).mpr (Or.inr rfl)

theorem foldl_flush_keys_mono : ∀ (rs : List (List (String × String)))
    (wts : List (String × Worktree)) (k : String),
    k ∈ wts.map Prod.fst → k ∈ (rs.foldl flushWorktree wts).map Prod.fst
  | [], _, _, hk => hk
  | r :: rest, wts, k, hk => by
    rw [List.foldl_cons]
    exact foldl_flush_keys_mono rest (flushWorktree wts r) k (flushWorktree_keys_mono hk)

theorem foldl_flush_keys_of_mem : ∀ (rs : List (List (String × String)))
    (wts : List (String × Worktree)) (r : List (String × String)) (braw : String),
    r ∈ rs → dictGet? r "branch" = some braw → pyStartswith braw "(" = false →
    stripPfx braw "refs/heads/" ∈ (rs.foldl flushWorktree wts).map Prod.fst
  | [], _, _, _, hr, _, _ => absurd hr (List.not_mem_nil _)
  | r0 :: rest, wts, r, braw, hr, hb, hdet => by
    rw [List.foldl_cons]
    rcases List.mem_cons.mp hr with h | h
    · subst h
      exact foldl_flush_keys_mono rest _ _ (flushWorktree_keys_add hb hdet)
    · exact foldl_flush_keys_of_mem rest _ r braw h hb hdet

/-- C9: every entry of the worktree map produced by `parse_worktrees` comes from
a record of the input whose `branch` field exists and does not denote a detached
HEAD; it is keyed by that record's branch name with the `refs/heads/` prefix
stripped, carries that key as its branch, the record's `worktree` value as its
path, and the record's `HEAD` value cut to its first 7 characters as its commit.
Conversely, every record with a present, non-detached branch contributes its
stripped branch name as a key, so exactly the absent-branch and detached-HEAD
records are excluded. -/
theorem C9_parse_worktrees (output : String) :
    (∀ k wt, (k, wt) ∈ parse_worktrees output →
      ∃ r ∈ wtRecords output, ∃ braw, dictGet? r "branch" = some braw ∧
        pyStartswith braw "(" = false ∧ k = stripPfx braw "refs/heads/" ∧
        wt.branch = k ∧ wt.path = (dictGet? r "worktree").getD "" ∧
        wt.head = pyTake ((dictGet? r "HEAD").getD "") 7) ∧
    (∀ r ∈ wtRecords output, ∀ braw, dictGet? r "branch" = some braw →
      pyStartswith braw "(" = false →
      stripPfx braw "refs/heads/" ∈ (parse_worktrees output).map Prod.fst) := by
  constructor
  · intro k wt hkwt
    rw [parse_worktrees, parseGo_records] at hkwt
    rcases foldl_flush_mem _ _ _ hkwt with h | ⟨r, hr, braw, hb, hdet, hshape⟩
    · cases h
    · have hk : k = stripPfx braw "refs/heads/" := congrArg Prod.fst hshape
      have hwt : wt = ⟨(dictGet? r "worktree").getD "",
          pyTake ((dictGet? r "HEAD").getD "") 7, stripPfx braw "refs/heads/"⟩ :=
        congrArg Prod.snd hshape
      refine ⟨r, hr, braw, hb, hdet, hk, ?_, ?_, ?_⟩
      · rw [hwt, hk]
      · rw [hwt]
      · rw [hwt]
  · intro r hr braw hb hdet
    rw [parse_worktrees, parseGo_records]
    exact foldl_flush_keys_of_mem _ _ r braw hr hb hdet

/-- C9 at concrete inputs: in `wtOutC9` the `main` entry traces back to its
record with path and 7-character head, the non-detached `feat` record
contributes its stripped key, and the detached record contributes nothing. -/
theorem C9_witness :
    stripPfx "refs/heads/feat" "refs/heads/" ∈ (parse_worktrees wtOutC9).map Prod.fst ∧
      ∃ r ∈ wtRecords wtOutC9, ∃ braw, dictGet? r "branch" = some braw ∧
        pyStartswith braw "(" = false ∧ "main" = stripPfx braw "refs/heads/" ∧
        wtMainC9.branch = "main" ∧ wtMainC9.path = (dictGet? r "worktree").getD "" ∧
        wtMainC9.head = pyTake ((dictGet? r "HEAD").getD "") 7 :=
  ⟨(C9_parse_worktrees wtOutC9).2 recFeatC9 (by decide) "refs/heads/feat" (by decide) rfl,
    (C9_parse_worktrees wtOutC9).1 "main" wtMainC9 (by decide)⟩

end Gbb
